import Mathlib

/-!
Verification of the cooperative task-scheduling core in src/async/src/main.rs:
the SimpleFuture poll contract, the Join and AndThenFut combinators, the
SocketRead leaf, and the driver loop described by the specification.

The Rust code is embedded shallowly: a SimpleFuture implementation with state
type s is a function s -> W -> Poll Unit x s, where W is the type of the wake
argument (a bare function pointer fn() in the source).  Combinator polls are
instrumented with an event trace recording, in order, which child polls and
retirements occur inside one call; the trace is derived line by line from the
sequencing of the source and is used to state ordering and never-re-polled
properties.
-/

namespace AsyncModel

/-- The two-state poll result from the source: enum Poll<T> { Ready(T), Pending }. -/
inductive Poll (α : Type) where
  | Ready : α → Poll α
  | Pending : Poll α
  deriving DecidableEq

/-- Events observable inside one call of Join.poll: a poll of child a or b
(recording the wake handle passed to the child) and a retirement of slot a or b
(the take() performed when the child returns Ready). -/
inductive JEvent (W : Type) where
  | pollA : W → JEvent W
  | retireA : JEvent W
  | pollB : W → JEvent W
  | retireB : JEvent W
  deriving DecidableEq

/-- The wake handle recorded by a Join event, if the event is a child poll. -/
def JEvent.wakeOf {W : Type} : JEvent W → Option W
  | JEvent.pollA w => some w
  | JEvent.retireA => none
  | JEvent.pollB w => some w
  | JEvent.retireB => none

/-- struct Join<FutureA, FutureB> { a: Option<FutureA>, b: Option<FutureB> }.
Child futures are carried by their state; the poll behaviour of each child is
passed separately to Join.poll. -/
structure Join (σa σb : Type) where
  a : Option σa
  b : Option σb
  deriving DecidableEq

variable {W σa σb σ α : Type}

/-- First block of Join::poll: if let Some(a) = &mut self.a { if let
Poll::Ready(()) = a.poll(wake) { self.a.take(); } }.  On Ready the slot is
taken (the mutated child state is discarded with the slot); on Pending the
slot keeps the mutated child state.  The returned trace records the child
poll and, when it happened, the retirement. -/
def Join.stepA (fa : σa → W → Poll Unit × σa) (s : Join σa σb) (w : W) :
    Join σa σb × List (JEvent W) :=
  match s.a with
  | none => (s, [])
  | some sa =>
    match fa sa w with
    | (Poll.Ready _, _) => ({ s with a := none }, [JEvent.pollA w, JEvent.retireA])
    | (Poll.Pending, sa') => ({ s with a := some sa' }, [JEvent.pollA w])

/-- Second block of Join::poll, identical to the first but for slot b. -/
def Join.stepB (fb : σb → W → Poll Unit × σb) (s : Join σa σb) (w : W) :
    Join σa σb × List (JEvent W) :=
  match s.b with
  | none => (s, [])
  | some sb =>
    match fb sb w with
    | (Poll.Ready _, _) => ({ s with b := none }, [JEvent.pollB w, JEvent.retireB])
    | (Poll.Pending, sb') => ({ s with b := some sb' }, [JEvent.pollB w])

/-- Join::poll from the source: step slot a, then slot b, then return
Ready(()) if self.a.is_none() && self.b.is_none(), else Pending.  The result
carries the poll outcome, the updated Join state and the event trace of the
call. -/
def Join.poll (fa : σa → W → Poll Unit × σa) (fb : σb → W → Poll Unit × σb)
    (s : Join σa σb) (w : W) : Poll Unit × Join σa σb × List (JEvent W) :=
  let p1 := Join.stepA fa s w
  let p2 := Join.stepB fb p1.1 w
  (if p2.1.a.isNone && p2.1.b.isNone then Poll.Ready () else Poll.Pending,
   p2.1, p1.2 ++ p2.2)

/-- A sequence of calls to Join.poll, one per wake handle in the list, as the
driver would make them; returns the final Join state and the concatenated
event trace of all calls. -/
def Join.runTrace (fa : σa → W → Poll Unit × σa) (fb : σb → W → Poll Unit × σb) :
    List W → Join σa σb → Join σa σb × List (JEvent W)
  | [], s => (s, [])
  | w :: ws, s =>
    let p := Join.poll fa fb s w
    let q := Join.runTrace fa fb ws p.2.1
    (q.1, p.2.2 ++ q.2)

/-- Events observable inside one call of AndThenFut.poll. -/
inductive AEvent (W : Type) where
  | pollFirst : W → AEvent W
  | retireFirst : AEvent W
  | pollSecond : W → AEvent W
  deriving DecidableEq

/-- The wake handle recorded by an AndThen event, if the event is a child poll. -/
def AEvent.wakeOf {W : Type} : AEvent W → Option W
  | AEvent.pollFirst w => some w
  | AEvent.retireFirst => none
  | AEvent.pollSecond w => some w

/-- struct AndThenFut<FutureA, FutureB> { first: Option<FutureA>, second: FutureB }. -/
structure AndThenFut (σa σb : Type) where
  first : Option σa
  second : σb
  deriving DecidableEq

/-- AndThenFut::poll from the source: if the first slot is Some, poll it; on
Ready take the slot and fall through, on Pending return Pending at once.
Reaching the last line (first slot empty, either just now or before the call)
polls the second child and returns its result. -/
def AndThenFut.poll (fa : σa → W → Poll Unit × σa) (fb : σb → W → Poll Unit × σb)
    (s : AndThenFut σa σb) (w : W) :
    Poll Unit × AndThenFut σa σb × List (AEvent W) :=
  match s.first with
  | some fst =>
    match fa fst w with
    | (Poll.Ready _, _) =>
      let q := fb s.second w
      (q.1, ⟨none, q.2⟩, [AEvent.pollFirst w, AEvent.retireFirst, AEvent.pollSecond w])
    | (Poll.Pending, fst') =>
      (Poll.Pending, ⟨some fst', s.second⟩, [AEvent.pollFirst w])
  | none =>
    let q := fb s.second w
    (q.1, ⟨none, q.2⟩, [AEvent.pollSecond w])

/-- Modelled from the spec: the external readiness source wrapped by
SocketRead.  The Socket type and its methods has_value/take_value/register_wake
are not in src (the Rust code only calls has_data_to_read, read_buf and
set_readable_callback on an undeclared Socket); section 6 of the spec gives
their contract: a value that can be consumed exactly once, and a wake
registration slot replaced by each new registration. -/
structure Socket (W : Type) where
  buf : Option (List Nat)
  callback : Option W
  deriving DecidableEq

/-- Modelled from the spec: has_value, true when a value is available. -/
def Socket.has_data_to_read (s : Socket W) : Bool := s.buf.isSome

/-- Modelled from the spec: take_value, returns the available value and
consumes it exactly once (valid only when has_data_to_read is true). -/
def Socket.read_buf (s : Socket W) : List Nat × Socket W :=
  (s.buf.getD [], { s with buf := none })

/-- Modelled from the spec: register_wake, stores the wake handle with the
source, replacing any prior registration. -/
def Socket.set_readable_callback (s : Socket W) (w : W) : Socket W :=
  { s with callback := some w }

/-- SocketRead::poll from the source: if the socket has data, read it and
return Ready; otherwise register the wake handle with the socket and return
Pending.  The socket stands in for the &Socket the Rust struct borrows; its
updated state is returned alongside the poll result. -/
def SocketRead.poll (sock : Socket W) (w : W) : Poll (List Nat) × Socket W :=
  if sock.has_data_to_read then
    let p := sock.read_buf
    (Poll.Ready p.1, p.2)
  else
    (Poll.Pending, sock.set_readable_callback w)

/-- The observable payload of one wake invocation in the source.  The wake
argument of SimpleFuture::poll has type fn(): a parameterless function
returning unit, so invoking it conveys no arguments and returns nothing; the
payload a driver could observe from one invocation is the empty tuple. -/
def WakePayload : Type := Unit

/-- Modelled from the spec: the blocking driver in single-task mode (the spec
block_on of section 6 and loop of section 4.5; the repository main only calls
the external futures crate executor).  It repeatedly polls the root
computation, stopping with its output at the first Ready; fuel bounds the
number of polls so the loop is total. -/
def block_on_fuel (f : σ → Poll α × σ) : Nat → σ → Option α
  | 0, _ => none
  | Nat.succ n, s =>
    match f s with
    | (Poll.Ready v, _) => some v
    | (Poll.Pending, s') => block_on_fuel f n s'

/-- The root computation completes at exactly the k-th poll with output v:
the first k polls return Pending and the next returns Ready v. -/
def ReadyAt (f : σ → Poll α × σ) : σ → Nat → α → Prop
  | s, 0, v => (f s).1 = Poll.Ready v
  | s, Nat.succ k, v => (f s).1 = Poll.Pending ∧ ReadyAt f (f s).2 k v

/-- A sample child that is ready at once and never changes its state. -/
def readyChild : Nat → W → Poll Unit × Nat :=
  fun n _ => (Poll.Ready (), n)

/-- A sample child that is never ready and counts its polls. -/
def pendingChild : Nat → W → Poll Unit × Nat :=
  fun n _ => (Poll.Pending, n + 1)

/-- A sample child that counts down: ready once its state reaches zero. -/
def countdownChild : Nat → W → Poll Unit × Nat :=
  fun n _ => if n = 0 then (Poll.Ready (), 0) else (Poll.Pending, n - 1)

/-- Helper: the poll outcome of Join.poll is Ready () exactly when both slots
of the state it leaves behind are empty; this is the final conditional of
Join::poll. -/
theorem Join.poll_ready_iff_none (fa : σa → W → Poll Unit × σa)
    (fb : σb → W → Poll Unit × σb) (s : Join σa σb) (w : W) :
    (Join.poll fa fb s w).1 = Poll.Ready () ↔
      ((Join.poll fa fb s w).2.1.a = none ∧ (Join.poll fa fb s w).2.1.b = none) := by
  show (if ((Join.stepB fb (Join.stepA fa s w).1 w).1.a.isNone &&
        (Join.stepB fb (Join.stepA fa s w).1 w).1.b.isNone) = true then Poll.Ready ()
      else Poll.Pending) = Poll.Ready () ↔
      ((Join.stepB fb (Join.stepA fa s w).1 w).1.a = none ∧
       (Join.stepB fb (Join.stepA fa s w).1 w).1.b = none)
  split_ifs with h
  · simp only [Bool.and_eq_true, Option.isNone_iff_eq_none] at h
    simp [h]
  · simp only [Bool.and_eq_true, Option.isNone_iff_eq_none, not_and] at h
    constructor
    · intro hc
      exact hc.elim
    · intro hc
      exact absurd hc.2 (h hc.1)

/-- Helper: every event in the trace of the first block of Join.poll either
records no wake handle or records exactly the handle given to the call. -/
theorem Join.stepA_wakeOf (fa : σa → W → Poll Unit × σa) (s : Join σa σb) (w : W)
    (e : JEvent W) (he : e ∈ (Join.stepA fa s w).2) :
    JEvent.wakeOf e = none ∨ JEvent.wakeOf e = some w := by
  cases hA : s.a with
  | none => simp [Join.stepA, hA] at he
  | some sa =>
    cases hfa : fa sa w with
    | mk r sa2 =>
      cases r with
      | Ready u =>
        simp [Join.stepA, hA, hfa] at he
        rcases he with h | h <;> simp [h, JEvent.wakeOf]
      | Pending =>
        simp [Join.stepA, hA, hfa] at he
        simp [he, JEvent.wakeOf]

/-- Helper: same as Join.stepA_wakeOf for the second block. -/
theorem Join.stepB_wakeOf (fb : σb → W → Poll Unit × σb) (s : Join σa σb) (w : W)
    (e : JEvent W) (he : e ∈ (Join.stepB fb s w).2) :
    JEvent.wakeOf e = none ∨ JEvent.wakeOf e = some w := by
  cases hB : s.b with
  | none => simp [Join.stepB, hB] at he
  | some sb =>
    cases hfb : fb sb w with
    | mk r sb2 =>
      cases r with
      | Ready u =>
        simp [Join.stepB, hB, hfb] at he
        rcases he with h | h <;> simp [h, JEvent.wakeOf]
      | Pending =>
        simp [Join.stepB, hB, hfb] at he
        simp [he, JEvent.wakeOf]

/-- Helper: every child poll inside one AndThenFut.poll call receives the
wake handle given to the call. -/
theorem AndThenFut.poll_trace_wakeOf (fa : σa → W → Poll Unit × σa)
    (fb : σb → W → Poll Unit × σb) (s : AndThenFut σa σb) (w : W) (e : AEvent W)
    (he : e ∈ (AndThenFut.poll fa fb s w).2.2) :
    AEvent.wakeOf e = none ∨ AEvent.wakeOf e = some w := by
  cases hF : s.first with
  | none =>
    simp [AndThenFut.poll, hF] at he
    simp [he, AEvent.wakeOf]
  | some fst =>
    cases hfa : fa fst w with
    | mk r fst2 =>
      cases r with
      | Ready u =>
        simp [AndThenFut.poll, hF, hfa] at he
        rcases he with h | h | h <;> simp [h, AEvent.wakeOf]
      | Pending =>
        simp [AndThenFut.poll, hF, hfa] at he
        simp [he, AEvent.wakeOf]

/-- C2: AndThen never steps its second child while the first slot is still
occupied.  When the first slot holds sa and polling sa returns Pending, the
call returns Pending at once, the second child is not polled (no pollSecond
event occurs) and is left unchanged, and the first slot keeps the stepped
child state. -/
theorem andthen_pending_shields_second
    (fa : σa → W → Poll Unit × σa) (fb : σb → W → Poll Unit × σb)
    (s : AndThenFut σa σb) (w : W) (sa : σa)
    (h1 : s.first = some sa) (h2 : (fa sa w).1 = Poll.Pending) :
    (AndThenFut.poll fa fb s w).1 = Poll.Pending ∧
    (AndThenFut.poll fa fb s w).2.1.second = s.second ∧
    (AndThenFut.poll fa fb s w).2.1.first = some (fa sa w).2 ∧
    ∀ w', AEvent.pollSecond w' ∉ (AndThenFut.poll fa fb s w).2.2 := by
  cases hfa : fa sa w with
  | mk r sa2 =>
    rw [hfa] at h2
    cases r with
    | Ready u => simp at h2
    | Pending => simp [AndThenFut.poll, h1, hfa]

/-- C5: when the first slot holds sa and polling sa returns Ready, the first
slot is cleared, the second child is polled in the same call and its result is
forwarded; and for any state whose first slot is already empty, a call polls
only the second child and forwards its result. -/
theorem andthen_ready_falls_through
    (fa : σa → W → Poll Unit × σa) (fb : σb → W → Poll Unit × σb)
    (s : AndThenFut σa σb) (w : W) (sa : σa)
    (h1 : s.first = some sa) :
    ((fa sa w).1 = Poll.Ready () →
      (AndThenFut.poll fa fb s w).1 = (fb s.second w).1 ∧
      (AndThenFut.poll fa fb s w).2.1 = ⟨none, (fb s.second w).2⟩ ∧
      AEvent.retireFirst ∈ (AndThenFut.poll fa fb s w).2.2 ∧
      AEvent.pollSecond w ∈ (AndThenFut.poll fa fb s w).2.2) ∧
    (∀ t : AndThenFut σa σb, t.first = none →
      (AndThenFut.poll fa fb t w).1 = (fb t.second w).1 ∧
      (AndThenFut.poll fa fb t w).2.1.second = (fb t.second w).2 ∧
      (AndThenFut.poll fa fb t w).2.2 = [AEvent.pollSecond w]) := by
  constructor
  · intro hr
    cases hfa : fa sa w with
    | mk r sa2 =>
      rw [hfa] at hr
      cases r with
      | Pending => simp at hr
      | Ready u => simp [AndThenFut.poll, h1, hfa]
  · intro t ht
    simp [AndThenFut.poll, ht]

/-- C10: AndThenFut never retires its second child.  For every state whose
first slot is empty, a call polls the second child (the trace is exactly one
pollSecond event), forwards its result, leaves the first slot empty — and a
further call on the resulting state polls the second child again, even when
the previous call already returned Ready. -/
theorem andthen_second_never_retired
    (fa : σa → W → Poll Unit × σa) (fb : σb → W → Poll Unit × σb)
    (s : AndThenFut σa σb) (w w' : W) (h : s.first = none) :
    (AndThenFut.poll fa fb s w).2.2 = [AEvent.pollSecond w] ∧
    (AndThenFut.poll fa fb s w).1 = (fb s.second w).1 ∧
    (AndThenFut.poll fa fb s w).2.1 = ⟨none, (fb s.second w).2⟩ ∧
    AEvent.pollSecond w' ∈ (AndThenFut.poll fa fb ((AndThenFut.poll fa fb s w).2.1) w').2.2 := by
  have hstate : (AndThenFut.poll fa fb s w).2.1 = ⟨none, (fb s.second w).2⟩ := by
    simp [AndThenFut.poll, h]
  refine ⟨by simp [AndThenFut.poll, h], by simp [AndThenFut.poll, h], hstate, ?_⟩
  rw [hstate]
  simp [AndThenFut.poll]

/-- C4: within one call of Join.poll with both slots occupied, child a is
polled first, then (if a returned Ready) slot a is retired, and only then is
child b polled: the trace starts pollA, [retireA], pollB. -/
theorem join_polls_a_before_b
    (fa : σa → W → Poll Unit × σa) (fb : σb → W → Poll Unit × σb)
    (s : Join σa σb) (w : W) (sa : σa) (sb : σb)
    (ha : s.a = some sa) (hb : s.b = some sb) :
    ((fa sa w).1 = Poll.Ready () →
      ∃ post, (Join.poll fa fb s w).2.2 =
        JEvent.pollA w :: JEvent.retireA :: JEvent.pollB w :: post) ∧
    ((fa sa w).1 = Poll.Pending →
      ∃ post, (Join.poll fa fb s w).2.2 =
        JEvent.pollA w :: JEvent.pollB w :: post) := by
  cases hfa : fa sa w with
  | mk r sa2 =>
  cases hfb : fb sb w with
  | mk rb sb2 =>
  constructor
  · intro hr
    cases r with
    | Pending => simp at hr
    | Ready u =>
      cases rb with
      | Ready ub =>
        refine ⟨[JEvent.retireB], ?_⟩
        simp [Join.poll, Join.stepA, Join.stepB, ha, hb, hfa, hfb]
      | Pending =>
        refine ⟨[], ?_⟩
        simp [Join.poll, Join.stepA, Join.stepB, ha, hb, hfa, hfb]
  · intro hr
    cases r with
    | Ready u => simp at hr
    | Pending =>
      cases rb with
      | Ready ub =>
        refine ⟨[JEvent.retireB], ?_⟩
        simp [Join.poll, Join.stepA, Join.stepB, ha, hb, hfa, hfb]
      | Pending =>
        refine ⟨[], ?_⟩
        simp [Join.poll, Join.stepA, Join.stepB, ha, hb, hfa, hfb]

/-- C9: polling a completed Join is idempotent.  When a call of Join.poll
returns Ready (), both slots of the state it leaves are empty, and any further
call on that state returns Ready () again, leaves the state unchanged and
polls no child (empty trace). -/
theorem join_ready_idempotent
    (fa : σa → W → Poll Unit × σa) (fb : σb → W → Poll Unit × σb)
    (s : Join σa σb) (w w' : W)
    (h : (Join.poll fa fb s w).1 = Poll.Ready ()) :
    (Join.poll fa fb s w).2.1.a = none ∧ (Join.poll fa fb s w).2.1.b = none ∧
    Join.poll fa fb ((Join.poll fa fb s w).2.1) w' =
      (Poll.Ready (), (Join.poll fa fb s w).2.1, []) := by
  obtain ⟨hA, hB⟩ := (Join.poll_ready_iff_none fa fb s w).1 h
  refine ⟨hA, hB, ?_⟩
  have hs : (Join.poll fa fb s w).2.1 = (⟨none, none⟩ : Join σa σb) := by
    rw [← hA, ← hB]
  rw [hs]
  simp [Join.poll, Join.stepA, Join.stepB]

/-- C6: SocketRead.poll returns Ready with the value read from the source
when the source has one (consuming it, callback untouched); otherwise it
registers the supplied wake handle with the source — replacing any prior
registration — and returns Pending. -/
theorem socketread_poll_spec (sock : Socket W) (w : W) :
    (∀ v, sock.buf = some v →
      (SocketRead.poll sock w).1 = Poll.Ready v ∧
      (SocketRead.poll sock w).2.buf = none ∧
      (SocketRead.poll sock w).2.callback = sock.callback) ∧
    (sock.buf = none →
      (SocketRead.poll sock w).1 = Poll.Pending ∧
      (SocketRead.poll sock w).2.callback = some w ∧
      (SocketRead.poll sock w).2.buf = sock.buf) := by
  constructor
  · intro v hv
    simp [SocketRead.poll, Socket.has_data_to_read, Socket.read_buf,
      Socket.set_readable_callback, hv]
  · intro hv
    simp [SocketRead.poll, Socket.has_data_to_read, Socket.read_buf,
      Socket.set_readable_callback, hv]

/-- C7 counterexample: a wake invocation in the source carries no payload (the
wake argument is a bare fn()), so no decoding of the payload of one invocation
can name which of two suspended tasks became ready: there is no surjection
from WakePayload onto two task identities. -/
theorem wake_carries_no_task_identity_cex :
    ¬ ∃ f : WakePayload → Bool, Function.Surjective f := by
  rintro ⟨f, hf⟩
  obtain ⟨x, hx⟩ := hf true
  obtain ⟨y, hy⟩ := hf false
  have hxy : f x = f y := congrArg f rfl
  rw [hx, hy] at hxy
  exact Bool.noConfusion hxy

/-- C7 amended: the wake handle threaded through poll is opaque and passed to
children unchanged (every child poll event of Join and AndThen records exactly
the handle the combinator received), but it carries no payload at all — every
function of the payload of a wake invocation is constant, so it carries no
task identity. -/
theorem wake_handle_no_identity
    (fa : σa → W → Poll Unit × σa) (fb : σb → W → Poll Unit × σb) :
    (∀ f : WakePayload → Bool, ∀ x y : WakePayload, f x = f y) ∧
    (∀ (s : Join σa σb) (w : W) (e : JEvent W),
      e ∈ (Join.poll fa fb s w).2.2 →
      JEvent.wakeOf e = none ∨ JEvent.wakeOf e = some w) ∧
    (∀ (s : AndThenFut σa σb) (w : W) (e : AEvent W),
      e ∈ (AndThenFut.poll fa fb s w).2.2 →
      AEvent.wakeOf e = none ∨ AEvent.wakeOf e = some w) := by
  refine ⟨fun f x y => congrArg f rfl, fun s w e he => ?_, fun s w e he => ?_⟩
  · have htr : (Join.poll fa fb s w).2.2 =
        (Join.stepA fa s w).2 ++ (Join.stepB fb (Join.stepA fa s w).1 w).2 := rfl
    rw [htr, List.mem_append] at he
    rcases he with h | h
    · exact Join.stepA_wakeOf fa s w e h
    · exact Join.stepB_wakeOf fb (Join.stepA fa s w).1 w e h
  · exact AndThenFut.poll_trace_wakeOf fa fb s w e he

/-- Helper: Join.poll unfolded into its two blocks and final conditional. -/
theorem Join.poll_decomp (fa : σa → W → Poll Unit × σa) (fb : σb → W → Poll Unit × σb)
    (s : Join σa σb) (w : W) :
    Join.poll fa fb s w =
      (if ((Join.stepB fb (Join.stepA fa s w).1 w).1.a.isNone &&
           (Join.stepB fb (Join.stepA fa s w).1 w).1.b.isNone) = true then Poll.Ready ()
       else Poll.Pending,
       (Join.stepB fb (Join.stepA fa s w).1 w).1,
       (Join.stepA fa s w).2 ++ (Join.stepB fb (Join.stepA fa s w).1 w).2) := rfl

/-- Helper: after the first block, slot a is empty exactly when it was empty
before or the block retired it (child a returned Ready). -/
theorem Join.stepA_a_none_iff (fa : σa → W → Poll Unit × σa) (s : Join σa σb) (w : W) :
    (Join.stepA fa s w).1.a = none ↔
      (s.a = none ∨ JEvent.retireA ∈ (Join.stepA fa s w).2) := by
  cases hA : s.a with
  | none => simp [Join.stepA, hA]
  | some sa =>
    cases hfa : fa sa w with
    | mk r sa2 => cases r <;> simp [Join.stepA, hA, hfa]

/-- Helper: the first block does not touch slot b. -/
theorem Join.stepA_b_eq (fa : σa → W → Poll Unit × σa) (s : Join σa σb) (w : W) :
    (Join.stepA fa s w).1.b = s.b := by
  cases hA : s.a with
  | none => simp [Join.stepA, hA]
  | some sa =>
    cases hfa : fa sa w with
    | mk r sa2 => cases r <;> simp [Join.stepA, hA, hfa]

/-- Helper: the first block produces no b events. -/
theorem Join.stepA_no_b_events (fa : σa → W → Poll Unit × σa) (s : Join σa σb) (w : W) :
    (∀ w', JEvent.pollB w' ∉ (Join.stepA fa s w).2) ∧
    JEvent.retireB ∉ (Join.stepA fa s w).2 := by
  cases hA : s.a with
  | none => simp [Join.stepA, hA]
  | some sa =>
    cases hfa : fa sa w with
    | mk r sa2 => cases r <;> simp [Join.stepA, hA, hfa]

/-- Helper: after the second block, slot b is empty exactly when it was empty
before or the block retired it (child b returned Ready). -/
theorem Join.stepB_b_none_iff (fb : σb → W → Poll Unit × σb) (s : Join σa σb) (w : W) :
    (Join.stepB fb s w).1.b = none ↔
      (s.b = none ∨ JEvent.retireB ∈ (Join.stepB fb s w).2) := by
  cases hB : s.b with
  | none => simp [Join.stepB, hB]
  | some sb =>
    cases hfb : fb sb w with
    | mk r sb2 => cases r <;> simp [Join.stepB, hB, hfb]

/-- Helper: the second block does not touch slot a. -/
theorem Join.stepB_a_eq (fb : σb → W → Poll Unit × σb) (s : Join σa σb) (w : W) :
    (Join.stepB fb s w).1.a = s.a := by
  cases hB : s.b with
  | none => simp [Join.stepB, hB]
  | some sb =>
    cases hfb : fb sb w with
    | mk r sb2 => cases r <;> simp [Join.stepB, hB, hfb]

/-- Helper: the second block produces no a events. -/
theorem Join.stepB_no_a_events (fb : σb → W → Poll Unit × σb) (s : Join σa σb) (w : W) :
    (∀ w', JEvent.pollA w' ∉ (Join.stepB fb s w).2) ∧
    JEvent.retireA ∉ (Join.stepB fb s w).2 := by
  cases hB : s.b with
  | none => simp [Join.stepB, hB]
  | some sb =>
    cases hfb : fb sb w with
    | mk r sb2 => cases r <;> simp [Join.stepB, hB, hfb]

/-- Helper: one call of Join.poll leaves slot a empty exactly when it was
already empty or this call retired it. -/
theorem Join.poll_state_a_none_iff (fa : σa → W → Poll Unit × σa)
    (fb : σb → W → Poll Unit × σb) (s : Join σa σb) (w : W) :
    (Join.poll fa fb s w).2.1.a = none ↔
      (s.a = none ∨ JEvent.retireA ∈ (Join.poll fa fb s w).2.2) := by
  simp only [Join.poll_decomp, List.mem_append]
  rw [Join.stepB_a_eq, Join.stepA_a_none_iff]
  have h2 := (Join.stepB_no_a_events fb (Join.stepA fa s w).1 w).2
  tauto

/-- Helper: one call of Join.poll leaves slot b empty exactly when it was
already empty or this call retired it. -/
theorem Join.poll_state_b_none_iff (fa : σa → W → Poll Unit × σa)
    (fb : σb → W → Poll Unit × σb) (s : Join σa σb) (w : W) :
    (Join.poll fa fb s w).2.1.b = none ↔
      (s.b = none ∨ JEvent.retireB ∈ (Join.poll fa fb s w).2.2) := by
  simp only [Join.poll_decomp, List.mem_append]
  rw [Join.stepB_b_none_iff, Join.stepA_b_eq]
  have h2 := (Join.stepA_no_b_events fa s w).2
  tauto

/-- Helper: when slot a is empty, a call of Join.poll keeps it empty and
never polls child a. -/
theorem Join.poll_a_none_frame (fa : σa → W → Poll Unit × σa)
    (fb : σb → W → Poll Unit × σb) (s : Join σa σb) (w : W) (h : s.a = none) :
    (Join.poll fa fb s w).2.1.a = none ∧
    ∀ w', JEvent.pollA w' ∉ (Join.poll fa fb s w).2.2 := by
  have hsA : Join.stepA fa s w = (s, []) := by simp [Join.stepA, h]
  constructor
  · rw [Join.poll_state_a_none_iff]
    exact Or.inl h
  · intro w'
    simp only [Join.poll_decomp, List.mem_append, not_or]
    rw [hsA]
    refine ⟨by simp, ?_⟩
    have := (Join.stepB_no_a_events fb (Join.stepA fa s w).1 w).1 w'
    rw [hsA] at this
    exact this

/-- Helper: when slot b is empty, a call of Join.poll keeps it empty and
never polls child b. -/
theorem Join.poll_b_none_frame (fa : σa → W → Poll Unit × σa)
    (fb : σb → W → Poll Unit × σb) (s : Join σa σb) (w : W) (h : s.b = none) :
    (Join.poll fa fb s w).2.1.b = none ∧
    ∀ w', JEvent.pollB w' ∉ (Join.poll fa fb s w).2.2 := by
  have hB1 : (Join.stepA fa s w).1.b = none := by rw [Join.stepA_b_eq]; exact h
  have hsB : Join.stepB fb (Join.stepA fa s w).1 w = ((Join.stepA fa s w).1, []) := by
    simp [Join.stepB, hB1]
  constructor
  · rw [Join.poll_state_b_none_iff]
    exact Or.inl h
  · intro w'
    simp only [Join.poll_decomp, List.mem_append, not_or]
    rw [hsB]
    refine ⟨?_, by simp⟩
    exact (Join.stepA_no_b_events fa s w).1 w'

/-- Helper: when slot a is occupied, a call of Join.poll polls child a with
the given wake handle. -/
theorem Join.poll_attempts_a (fa : σa → W → Poll Unit × σa)
    (fb : σb → W → Poll Unit × σb) (s : Join σa σb) (w : W) (h : s.a.isSome = true) :
    JEvent.pollA w ∈ (Join.poll fa fb s w).2.2 := by
  obtain ⟨sa, hA⟩ := Option.isSome_iff_exists.mp h
  simp only [Join.poll_decomp, List.mem_append]
  left
  cases hfa : fa sa w with
  | mk r sa2 => cases r <;> simp [Join.stepA, hA, hfa]

/-- Helper: when slot b is occupied, a call of Join.poll polls child b with
the given wake handle. -/
theorem Join.poll_attempts_b (fa : σa → W → Poll Unit × σa)
    (fb : σb → W → Poll Unit × σb) (s : Join σa σb) (w : W) (h : s.b.isSome = true) :
    JEvent.pollB w ∈ (Join.poll fa fb s w).2.2 := by
  obtain ⟨sb, hB⟩ := Option.isSome_iff_exists.mp h
  have hB1 : (Join.stepA fa s w).1.b = some sb := by rw [Join.stepA_b_eq]; exact hB
  simp only [Join.poll_decomp, List.mem_append]
  right
  cases hfb : fb sb w with
  | mk r sb2 => cases r <;> simp [Join.stepB, hB1, hfb]

/-- Helper: a run of Join.poll calls starting with slot a empty keeps it
empty and never polls child a. -/
theorem Join.runTrace_a_none (fa : σa → W → Poll Unit × σa)
    (fb : σb → W → Poll Unit × σb) (ws : List W) (s : Join σa σb) (h : s.a = none) :
    (Join.runTrace fa fb ws s).1.a = none ∧
    ∀ w', JEvent.pollA w' ∉ (Join.runTrace fa fb ws s).2 := by
  revert h
  induction ws generalizing s with
  | nil =>
    intro h
    simp [Join.runTrace, h]
  | cons w ws ih =>
    intro h
    have hframe := Join.poll_a_none_frame fa fb s w h
    have hrest := ih (Join.poll fa fb s w).2.1 hframe.1
    constructor
    · simp only [Join.runTrace]
      exact hrest.1
    · intro w'
      simp only [Join.runTrace, List.mem_append, not_or]
      exact ⟨hframe.2 w', hrest.2 w'⟩

/-- Helper: a run of Join.poll calls starting with slot b empty keeps it
empty and never polls child b. -/
theorem Join.runTrace_b_none (fa : σa → W → Poll Unit × σa)
    (fb : σb → W → Poll Unit × σb) (ws : List W) (s : Join σa σb) (h : s.b = none) :
    (Join.runTrace fa fb ws s).1.b = none ∧
    ∀ w', JEvent.pollB w' ∉ (Join.runTrace fa fb ws s).2 := by
  revert h
  induction ws generalizing s with
  | nil =>
    intro h
    simp [Join.runTrace, h]
  | cons w ws ih =>
    intro h
    have hframe := Join.poll_b_none_frame fa fb s w h
    have hrest := ih (Join.poll fa fb s w).2.1 hframe.1
    constructor
    · simp only [Join.runTrace]
      exact hrest.1
    · intro w'
      simp only [Join.runTrace, List.mem_append, not_or]
      exact ⟨hframe.2 w', hrest.2 w'⟩

/-- Helper: over a run of Join.poll calls, slot a ends empty exactly when it
started empty or some call of the run retired it (child a returned Ready). -/
theorem Join.runTrace_a_none_iff (fa : σa → W → Poll Unit × σa)
    (fb : σb → W → Poll Unit × σb) (ws : List W) (s : Join σa σb) :
    (Join.runTrace fa fb ws s).1.a = none ↔
      (s.a = none ∨ JEvent.retireA ∈ (Join.runTrace fa fb ws s).2) := by
  induction ws generalizing s with
  | nil => simp [Join.runTrace]
  | cons w ws ih =>
    simp only [Join.runTrace, List.mem_append]
    rw [ih, Join.poll_state_a_none_iff]
    tauto

/-- Helper: over a run of Join.poll calls, slot b ends empty exactly when it
started empty or some call of the run retired it (child b returned Ready). -/
theorem Join.runTrace_b_none_iff (fa : σa → W → Poll Unit × σa)
    (fb : σb → W → Poll Unit × σb) (ws : List W) (s : Join σa σb) :
    (Join.runTrace fa fb ws s).1.b = none ↔
      (s.b = none ∨ JEvent.retireB ∈ (Join.runTrace fa fb ws s).2) := by
  induction ws generalizing s with
  | nil => simp [Join.runTrace]
  | cons w ws ih =>
    simp only [Join.runTrace, List.mem_append]
    rw [ih, Join.poll_state_b_none_iff]
    tauto

/-- C3: each Join child slot goes from occupied to empty exactly upon that
child returning Ready (the retirement event), the parent returns Ready only
when both slots are empty, and once a slot is empty no call of any later run
ever polls that child again or refills the slot. -/
theorem join_slot_retirement
    (fa : σa → W → Poll Unit × σa) (fb : σb → W → Poll Unit × σb)
    (s : Join σa σb) (w : W) :
    ((Join.poll fa fb s w).2.1.a = none ↔
      (s.a = none ∨ JEvent.retireA ∈ (Join.poll fa fb s w).2.2)) ∧
    ((Join.poll fa fb s w).2.1.b = none ↔
      (s.b = none ∨ JEvent.retireB ∈ (Join.poll fa fb s w).2.2)) ∧
    ((Join.poll fa fb s w).1 = Poll.Ready () →
      (Join.poll fa fb s w).2.1.a = none ∧ (Join.poll fa fb s w).2.1.b = none) ∧
    (∀ ws, s.a = none →
      (Join.runTrace fa fb ws s).1.a = none ∧
      ∀ w', JEvent.pollA w' ∉ (Join.runTrace fa fb ws s).2) ∧
    (∀ ws, s.b = none →
      (Join.runTrace fa fb ws s).1.b = none ∧
      ∀ w', JEvent.pollB w' ∉ (Join.runTrace fa fb ws s).2) :=
  ⟨Join.poll_state_a_none_iff fa fb s w, Join.poll_state_b_none_iff fa fb s w,
    fun h => (Join.poll_ready_iff_none fa fb s w).1 h,
    fun ws h => Join.runTrace_a_none fa fb ws s h,
    fun ws h => Join.runTrace_b_none fa fb ws s h⟩

/-- C1: a call of Join.poll attempts each still-occupied slot and returns
Ready () exactly when both slots are empty afterwards; over any run from a
fresh Join (both slots occupied), a call returns Ready () exactly when both
children have returned Ready at least once (their retirement events have
occurred), so Ready is never yielded earlier. -/
theorem join_ready_iff_both_children_ready
    (fa : σa → W → Poll Unit × σa) (fb : σb → W → Poll Unit × σb)
    (s0 : Join σa σb) (ws : List W) (w : W)
    (ha : s0.a.isSome = true) (hb : s0.b.isSome = true) :
    ((Join.poll fa fb (Join.runTrace fa fb ws s0).1 w).1 = Poll.Ready () ↔
      ((Join.poll fa fb (Join.runTrace fa fb ws s0).1 w).2.1.a = none ∧
       (Join.poll fa fb (Join.runTrace fa fb ws s0).1 w).2.1.b = none)) ∧
    ((Join.poll fa fb (Join.runTrace fa fb ws s0).1 w).1 = Poll.Ready () ↔
      (JEvent.retireA ∈ (Join.runTrace fa fb ws s0).2 ++
          (Join.poll fa fb (Join.runTrace fa fb ws s0).1 w).2.2 ∧
       JEvent.retireB ∈ (Join.runTrace fa fb ws s0).2 ++
          (Join.poll fa fb (Join.runTrace fa fb ws s0).1 w).2.2)) ∧
    ((Join.runTrace fa fb ws s0).1.a.isSome = true →
      JEvent.pollA w ∈ (Join.poll fa fb (Join.runTrace fa fb ws s0).1 w).2.2) ∧
    ((Join.runTrace fa fb ws s0).1.b.isSome = true →
      JEvent.pollB w ∈ (Join.poll fa fb (Join.runTrace fa fb ws s0).1 w).2.2) := by
  have hA0 : ¬ s0.a = none := by
    intro hc
    rw [hc] at ha
    simp at ha
  have hB0 : ¬ s0.b = none := by
    intro hc
    rw [hc] at hb
    simp at hb
  refine ⟨Join.poll_ready_iff_none fa fb _ w, ?_,
    fun h => Join.poll_attempts_a fa fb _ w h,
    fun h => Join.poll_attempts_b fa fb _ w h⟩
  rw [Join.poll_ready_iff_none fa fb _ w]
  rw [Join.poll_state_a_none_iff, Join.poll_state_b_none_iff]
  rw [Join.runTrace_a_none_iff, Join.runTrace_b_none_iff]
  simp only [List.mem_append]
  tauto

/-- C8: the single-task blocking driver modelled from the spec terminates
with output v exactly when the submitted root computation completes with v
within the given number of passes: it returns some v iff the root polls
Pending k times and then Ready v, for some k below the fuel. -/
theorem block_on_terminates_iff_root_ready
    (f : σ → Poll α × σ) (n : Nat) (s : σ) (v : α) :
    block_on_fuel f n s = some v ↔ ∃ k, k < n ∧ ReadyAt f s k v := by
  induction n generalizing s with
  | zero => simp [block_on_fuel]
  | succ n ih =>
    cases hf : f s with
    | mk r s2 =>
      cases r with
      | Ready u =>
        simp only [block_on_fuel, hf]
        constructor
        · intro h
          refine ⟨0, Nat.succ_pos n, ?_⟩
          simp only [ReadyAt, hf]
          simpa using h
        · rintro ⟨k, hk, hr⟩
          cases k with
          | zero =>
            simp [ReadyAt, hf] at hr
            rw [hr]
          | succ k =>
            simp [ReadyAt, hf] at hr
      | Pending =>
        simp only [block_on_fuel, hf]
        rw [ih]
        constructor
        · rintro ⟨k, hk, hr⟩
          refine ⟨k + 1, Nat.succ_lt_succ hk, ?_⟩
          simp only [ReadyAt, hf]
          exact ⟨trivial, hr⟩
        · rintro ⟨k, hk, hr⟩
          cases k with
          | zero => simp [ReadyAt, hf] at hr
          | succ k =>
            simp only [ReadyAt, hf] at hr
            exact ⟨k, Nat.lt_of_succ_lt_succ hk, hr.2⟩

/-- Witness for C1 at a concrete Join of a countdown child and an
always-ready child, after one driver pass. -/
theorem join_ready_iff_both_children_ready_witness :
    ((⟨some 1, some 0⟩ : Join Nat Nat).a.isSome = true ∧
     (⟨some 1, some 0⟩ : Join Nat Nat).b.isSome = true) ∧
    ((Join.poll countdownChild readyChild
        (Join.runTrace countdownChild readyChild [()] (⟨some 1, some 0⟩ : Join Nat Nat)).1 ()).1 =
        Poll.Ready () ↔
      (JEvent.retireA ∈ (Join.runTrace countdownChild readyChild [()]
            (⟨some 1, some 0⟩ : Join Nat Nat)).2 ++
          (Join.poll countdownChild readyChild
            (Join.runTrace countdownChild readyChild [()] (⟨some 1, some 0⟩ : Join Nat Nat)).1 ()).2.2 ∧
       JEvent.retireB ∈ (Join.runTrace countdownChild readyChild [()]
            (⟨some 1, some 0⟩ : Join Nat Nat)).2 ++
          (Join.poll countdownChild readyChild
            (Join.runTrace countdownChild readyChild [()] (⟨some 1, some 0⟩ : Join Nat Nat)).1 ()).2.2)) :=
  ⟨⟨rfl, rfl⟩,
    (join_ready_iff_both_children_ready countdownChild readyChild
      ⟨some 1, some 0⟩ [()] () rfl rfl).2.1⟩

/-- Witness for C2 at a concrete AndThen whose first child stays Pending. -/
theorem andthen_pending_shields_second_witness :
    ((⟨some 0, 5⟩ : AndThenFut Nat Nat).first = some 0 ∧
     (pendingChild 0 ()).1 = Poll.Pending) ∧
    (AndThenFut.poll pendingChild readyChild (⟨some 0, 5⟩ : AndThenFut Nat Nat) ()).1 =
      Poll.Pending :=
  ⟨⟨rfl, rfl⟩,
    (andthen_pending_shields_second pendingChild readyChild ⟨some 0, 5⟩ () 0 rfl rfl).1⟩

/-- Witness for C3 at a concrete Join whose slot a is already empty: a
two-pass run never polls child a. -/
theorem join_slot_retirement_witness :
    ((⟨none, some 0⟩ : Join Nat Nat).a = none) ∧
    ∀ w', JEvent.pollA w' ∉
      (Join.runTrace readyChild pendingChild [(), ()] (⟨none, some 0⟩ : Join Nat Nat)).2 :=
  ⟨rfl,
    ((join_slot_retirement readyChild pendingChild ⟨none, some 0⟩ ()).2.2.2.1 [(), ()] rfl).2⟩

/-- Witness for C4 at a concrete Join with both slots occupied and child a
immediately ready: the trace starts pollA, retireA, pollB. -/
theorem join_polls_a_before_b_witness :
    ((⟨some 0, some 1⟩ : Join Nat Nat).a = some 0 ∧
     (⟨some 0, some 1⟩ : Join Nat Nat).b = some 1 ∧
     (readyChild 0 ()).1 = Poll.Ready ()) ∧
    ∃ post, (Join.poll readyChild pendingChild (⟨some 0, some 1⟩ : Join Nat Nat) ()).2.2 =
      JEvent.pollA () :: JEvent.retireA :: JEvent.pollB () :: post :=
  ⟨⟨rfl, rfl, rfl⟩,
    (join_polls_a_before_b readyChild pendingChild ⟨some 0, some 1⟩ () 0 1 rfl rfl).1 rfl⟩

/-- Witness for C5 at a concrete AndThen whose first child is immediately
ready: the second child is polled in the same call. -/
theorem andthen_ready_falls_through_witness :
    ((⟨some 0, 5⟩ : AndThenFut Nat Nat).first = some 0 ∧
     (readyChild 0 ()).1 = Poll.Ready ()) ∧
    AEvent.pollSecond () ∈
      (AndThenFut.poll readyChild pendingChild (⟨some 0, 5⟩ : AndThenFut Nat Nat) ()).2.2 :=
  ⟨⟨rfl, rfl⟩,
    ((andthen_ready_falls_through readyChild pendingChild ⟨some 0, 5⟩ () 0 rfl).1 rfl).2.2.2⟩

/-- Witness for C6 at a concrete socket with no data and a stale registration:
poll registers the new wake handle, replacing the old one. -/
theorem socketread_poll_spec_witness :
    ((⟨none, some 9⟩ : Socket Nat).buf = none) ∧
    (SocketRead.poll (⟨none, some 9⟩ : Socket Nat) 5).2.callback = some 5 :=
  ⟨rfl, ((socketread_poll_spec (⟨none, some 9⟩ : Socket Nat) 5).2 rfl).2.1⟩

/-- Witness for the amended C7 at a concrete Join polled with wake handle 3:
the recorded child poll event carries exactly that handle. -/
theorem wake_handle_no_identity_witness :
    (JEvent.pollA 3 ∈
      (Join.poll readyChild readyChild (⟨some 0, some 0⟩ : Join Nat Nat) 3).2.2) ∧
    (JEvent.wakeOf (JEvent.pollA 3) = none ∨
     JEvent.wakeOf (JEvent.pollA 3) = some (3 : Nat)) :=
  ⟨by decide,
    (wake_handle_no_identity readyChild readyChild).2.1 ⟨some 0, some 0⟩ 3
      (JEvent.pollA 3) (by decide)⟩

/-- Witness for C9 at a concrete Join of two always-ready children: the first
call returns Ready and the second call is an idempotent no-op. -/
theorem join_ready_idempotent_witness :
    ((Join.poll readyChild readyChild (⟨some 0, some 0⟩ : Join Nat Nat) ()).1 =
      Poll.Ready ()) ∧
    Join.poll readyChild readyChild
        ((Join.poll readyChild readyChild (⟨some 0, some 0⟩ : Join Nat Nat) ()).2.1) () =
      (Poll.Ready (),
       (Join.poll readyChild readyChild (⟨some 0, some 0⟩ : Join Nat Nat) ()).2.1, []) :=
  ⟨rfl, (join_ready_idempotent readyChild readyChild ⟨some 0, some 0⟩ () () rfl).2.2⟩

/-- Witness for C10 at a concrete completed AndThen: after a call that
returned Ready, a further call still polls the second child. -/
theorem andthen_second_never_retired_witness :
    ((⟨none, 3⟩ : AndThenFut Nat Nat).first = none) ∧
    AEvent.pollSecond () ∈ (AndThenFut.poll readyChild readyChild
      ((AndThenFut.poll readyChild readyChild (⟨none, 3⟩ : AndThenFut Nat Nat) ()).2.1) ()).2.2 :=
  ⟨rfl, (andthen_second_never_retired readyChild readyChild ⟨none, 3⟩ () () rfl).2.2.2⟩

end AsyncModel
